import Mathlib

/-!
Shallow embedding of the nexe runtime bootstrap shim: the path mapper
toSnapshotPath, the internal-module hooks (read-file, read-JSON, stat),
the Module findPath resolver hook with its package-exports resolver, the
install/uninstall bookkeeping of shimFs/restoreFs, and the archive blob
read.  All definitions are translated from the repository source; external
library functions (path.relative, path.isAbsolute, JSON.parse, the real
and the patched filesystem) appear as explicit function parameters.
-/

set_option maxHeartbeats 1000000

namespace Nexe

/-- JavaScript runtime values as they cross the hook boundaries: strings,
numbers, booleans, undefined, and any other (object-like) value. -/
inductive JSVal where
  | str (s : String)
  | num (n : Int)
  | bool (b : Bool)
  | undef
  | other
deriving DecidableEq

/-- JS truthiness for the values modelled by JSVal; object-like values
(constructor other) are truthy. -/
def jsTruthy : JSVal → Bool
  | JSVal.str s => s != ""
  | JSVal.num n => n != 0
  | JSVal.bool b => b
  | JSVal.undef => false
  | JSVal.other => true

/-- File kinds the hooks distinguish through stat.isFile and
stat.isDirectory; other covers stat results that are neither. -/
inductive FileKind where
  | file
  | dir
  | other
deriving DecidableEq

/-- JSON values produced by JSON.parse: null, booleans, numbers, strings,
arrays and objects.  Objects are key/value lists in insertion order with
distinct keys, matching parsed JS objects. -/
inductive JSON where
  | null
  | bool (b : Bool)
  | num (n : Int)
  | str (s : String)
  | arr (xs : List JSON)
  | obj (kvs : List (String × JSON))

/-- JS truthiness of a JSON value: null, false, 0 and the empty string are
falsy; arrays and objects are always truthy. -/
def jsonTruthy : JSON → Bool
  | JSON.null => false
  | JSON.bool b => b
  | JSON.num n => n != 0
  | JSON.str s => s != ""
  | JSON.arr _ => true
  | JSON.obj _ => true

/-- First-match association lookup in an object key/value list, modelling
JS property access on a plain parsed object (keys are distinct). -/
def lookupField : List (String × JSON) → String → Option JSON
  | [], _ => none
  | (k, v) :: rest, key => if k = key then some v else lookupField rest key

/-- Indexed lookup in an array by canonical index string, modelling JS
property access such as a["0"] on an array. -/
def lookupIndex : Nat → List JSON → String → Option JSON
  | _, [], _ => none
  | i, x :: xs, key => if toString i = key then some x else lookupIndex (i + 1) xs key

/-- JS property access v[key] on a JSON value; none models undefined. -/
def jsGet : JSON → String → Option JSON
  | JSON.obj kvs, key => lookupField kvs key
  | JSON.arr xs, key => lookupIndex 0 xs key
  | _, _ => none

mutual

/-- Translated from resolveExportsObject (part_000 lines 204-233): a
string is a literal target; a falsy or non-object value yields null; for
an object the keys are scanned in insertion order for one contained in the
condition set, string values are returned, object values are recursed
into, and a recursion producing null or an empty string lets the scan
continue; if "default" is not among the conditions, a truthy "default"
entry is tried after the scan.  Iterating the stored entries coincides
with iterating Object.keys plus property lookup because parsed objects
have distinct keys; array values iterate their index-string keys. -/
def resolveExportsObject (o : JSON) (conds : List String) : Option String :=
  match o with
  | JSON.str s => some s
  | JSON.obj kvs =>
    (match condLoopObj kvs conds with
     | some r => some r
     | none =>
       if conds.contains "default" then none
       else defaultLoopObj kvs conds)
  | JSON.arr xs =>
    (match condLoopArr 0 xs conds with
     | some r => some r
     | none => none)
  | _ => none

/-- The key scan of resolveExportsObject over the entries of an object. -/
def condLoopObj (kvs : List (String × JSON)) (conds : List String) : Option String :=
  match kvs with
  | [] => none
  | (k, v) :: rest =>
    if conds.contains k then
      match v with
      | JSON.str s => some s
      | JSON.obj _ =>
        (match resolveExportsObject v conds with
         | some s => if s != "" then some s else condLoopObj rest conds
         | none => condLoopObj rest conds)
      | JSON.arr _ =>
        (match resolveExportsObject v conds with
         | some s => if s != "" then some s else condLoopObj rest conds
         | none => condLoopObj rest conds)
      | _ => condLoopObj rest conds
    else condLoopObj rest conds

/-- The key scan over the entries of an array (keys are index strings). -/
def condLoopArr (i : Nat) (xs : List JSON) (conds : List String) : Option String :=
  match xs with
  | [] => none
  | x :: rest =>
    if conds.contains (toString i) then
      match x with
      | JSON.str s => some s
      | JSON.obj _ =>
        (match resolveExportsObject x conds with
         | some s => if s != "" then some s else condLoopArr (i + 1) rest conds
         | none => condLoopArr (i + 1) rest conds)
      | JSON.arr _ =>
        (match resolveExportsObject x conds with
         | some s => if s != "" then some s else condLoopArr (i + 1) rest conds
         | none => condLoopArr (i + 1) rest conds)
      | _ => condLoopArr (i + 1) rest conds
    else condLoopArr (i + 1) rest conds

/-- The trailing default branch of resolveExportsObject: the "default"
entry, when truthy, is returned when a string and recursed into when
object-like. -/
def defaultLoopObj (kvs : List (String × JSON)) (conds : List String) : Option String :=
  match kvs with
  | [] => none
  | (k, v) :: rest =>
    if k = "default" then
      if jsonTruthy v then
        match v with
        | JSON.str s => some s
        | JSON.obj _ => resolveExportsObject v conds
        | JSON.arr _ => resolveExportsObject v conds
        | _ => none
      else none
    else defaultLoopObj rest conds

end

/-- Translated from resolvePackageExports (part_000 lines 192-202): a
string is returned as is; a falsy or non-object value yields null;
otherwise a "." entry is unwrapped first, nullish-coalescing back to the
whole object, and handed to resolveExportsObject. -/
def resolvePackageExports (e : JSON) (conds : List String) : Option String :=
  match e with
  | JSON.str s => some s
  | JSON.obj kvs =>
    (match lookupField kvs "." with
     | some JSON.null => resolveExportsObject e conds
     | some v => resolveExportsObject v conds
     | none => resolveExportsObject e conds)
  | JSON.arr _ => resolveExportsObject e conds
  | _ => none

/-- Code-unit prefix test, the semantics of JS String startsWith. -/
def jsStartsWith (s pre : String) : Bool := List.isPrefixOf pre.data s.data

/-- Code-unit suffix test, the semantics of JS String endsWith. -/
def jsEndsWith (s suf : String) : Bool := List.isSuffixOf suf.data s.data

/-- JS String slice(n): drop the first n code units. -/
def jsSlice (s : String) (n : Nat) : String := String.mk (s.data.drop n)

/-- Global replacement of backslashes by slashes, the semantics of the
replace call with the global backslash pattern in toSnapshotPath. -/
def backslashToSlash (s : String) : String :=
  String.mk (s.data.map fun c => if c = '\\' then '/' else c)

/-- The inline Windows extended-length prefix strip performed by the read
and stat hooks before path mapping (part_000 lines 111-113 and 162-164). -/
def stripExtendedLen (s : String) : String :=
  if jsStartsWith s "\\\\?\\" then jsSlice s 4 else s

/-- Translated from toSnapshotPath (part_000 lines 88-104).  drive and
projectRoot are the values captured by shimFs; rel models the external
path.relative library function. -/
def toSnapshotPath (drive projectRoot : String) (rel : String → String → String)
    (filePath : String) : String :=
  if jsStartsWith filePath "/snapshot/" then filePath
  else if jsStartsWith filePath (drive ++ "\\snapshot\\") then
    "/snapshot/" ++ backslashToSlash (jsSlice filePath (drive.length + 9))
  else if jsStartsWith filePath projectRoot then
    "/snapshot/" ++ backslashToSlash (rel projectRoot filePath)
  else filePath

/-- ENOENT from the constants module. -/
def ENOENT : Int := 2

/-- args[i], undefined beyond the end of the argument list. -/
def argGet (args : List JSVal) (i : Nat) : JSVal := args.getD i JSVal.undef

/-- Translated from internalModuleReadFile (part_000 lines 108-122):
a non-string first argument reads as the empty path; the extended-length
prefix is stripped, the path mapped, and the patched readFileSync result
returned, with the empty string on any failure.  readF models the patched
fs.readFileSync in UTF-8 (none models a thrown error). -/
def internalModuleReadFile (readF : String → Option String)
    (drive projectRoot : String) (rel : String → String → String)
    (args : List JSVal) : String :=
  let filePath := match argGet args 0 with
                  | JSVal.str s => s
                  | _ => ""
  match readF (toSnapshotPath drive projectRoot rel (stripExtendedLen filePath)) with
  | some content => content
  | none => ""

/-- Translated from the internalModuleReadJSON patch (part_000 lines
127-130): the read-file result, with the empty string rewritten to
undefined. -/
def internalModuleReadJSON (readF : String → Option String)
    (drive projectRoot : String) (rel : String → String → String)
    (args : List JSVal) : Option String :=
  let content := internalModuleReadFile readF drive projectRoot rel args
  if content = "" then none else some content

/-- The path branch of internalModuleStat (part_000 lines 161-174): strip
the extended-length prefix, map the path, and return 1 for a directory, 0
for any other successful stat, and negated ENOENT on failure. -/
def statPathBranch (stat : String → Option FileKind)
    (drive projectRoot : String) (rel : String → String → String)
    (s : String) : Int :=
  match stat (toSnapshotPath drive projectRoot rel (stripExtendedLen s)) with
  | some FileKind.dir => 1
  | some _ => 0
  | none => -ENOENT

/-- Translated from internalModuleStat (part_000 lines 133-175).  fstatOk
models the saved originalFsMethods.fstatSync succeeding on a descriptor;
stat models statSync on the patched fs (none models a thrown error);
original models the original slot invoked on the unmodified arguments. -/
def internalModuleStat (fstatOk : Int → Bool) (stat : String → Option FileKind)
    (drive projectRoot : String) (rel : String → String → String)
    (original : List JSVal → Int) (args : List JSVal) : Int :=
  match argGet args 0 with
  | JSVal.num n => if fstatOk n then 0 else -ENOENT
  | JSVal.str s => statPathBranch stat drive projectRoot rel s
  | _ =>
    match argGet args 1 with
    | JSVal.str s => statPathBranch stat drive projectRoot rel s
    | _ => original args

/-- Split a character list on a separator character; the empty input
yields one empty segment, as in Node path parsing. -/
def splitOnChar (c : Char) : List Char → List (List Char)
  | [] => [[]]
  | x :: xs =>
    let r := splitOnChar c xs
    if x = c then [] :: r
    else
      match r with
      | seg :: rest => (x :: seg) :: rest
      | [] => [[x]]

/-- Segment normalization of path.posix.normalize (normalizeString in the
Node path module): empty and single-dot segments are dropped; a dot-dot
segment pops the previous segment, accumulating above the start only when
allowAbove holds (relative paths). -/
def normSegs (allowAbove : Bool) (acc : List (List Char)) :
    List (List Char) → List (List Char)
  | [] => acc.reverse
  | seg :: rest =>
    if seg = [] ∨ seg = ['.'] then normSegs allowAbove acc rest
    else if seg = ['.', '.'] then
      match acc with
      | top :: pre =>
        if top = ['.', '.'] then
          if allowAbove then normSegs allowAbove (seg :: acc) rest
          else normSegs allowAbove acc rest
        else normSegs allowAbove pre rest
      | [] =>
        if allowAbove then normSegs allowAbove [seg] rest
        else normSegs allowAbove [] rest
    else normSegs allowAbove (seg :: acc) rest

/-- Join path segments with a slash. -/
def joinSegs : List (List Char) → List Char
  | [] => []
  | [s] => s
  | s :: rest => s ++ '/' :: joinSegs rest

/-- path.posix.normalize from the Node path module. -/
def posixNormalize (p : String) : String :=
  if p = "" then "."
  else
    let cs := p.data
    let isAbs : Bool := cs.head? == some '/'
    let trailing : Bool := cs.getLast? == some '/'
    let body := joinSegs (normSegs (!isAbs) [] (splitOnChar '/' cs))
    if body = [] then
      if isAbs then "/" else if trailing then "./" else "."
    else
      let body2 := if trailing then body ++ ['/'] else body
      if isAbs then String.mk ('/' :: body2) else String.mk body2

/-- path.posix.join: concatenate the nonempty parts with slashes and
normalize the result. -/
def posixJoin (parts : List String) : String :=
  match parts.filter (fun s => s != "") with
  | [] => "."
  | ps => posixNormalize (String.mk (joinSegs (ps.map String.data)))

/-- The isFile helper of the resolver hook (part_000 lines 182-189): a
successful patched stat reporting a regular file. -/
def isFile (stat : String → Option FileKind) (p : String) : Bool :=
  match stat p with
  | some FileKind.file => true
  | _ => false

/-- The extension probe of the resolver hook (the two loops over the
extension list at part_000 lines 278-281 and 312-315): the first of
p.js, p.json, p.node that is a file. -/
def firstExtFile (stat : String → Option FileKind) (p : String) : Option String :=
  if isFile stat (p ++ ".js") then some (p ++ ".js")
  else if isFile stat (p ++ ".json") then some (p ++ ".json")
  else if isFile stat (p ++ ".node") then some (p ++ ".node")
  else none

/-- The exports step of nexeFindPath (part_000 lines 269-283): when the
manifest has a truthy exports field, resolve it against the condition set
[require, node, default]; a nonempty target is joined against the package
base and accepted when a file, else probed with extensions. -/
def exportsPhase (stat : String → Option FileKind) (pkg : JSON) (request : String) :
    Option String :=
  match jsGet pkg "exports" with
  | some e =>
    if jsonTruthy e then
      match resolvePackageExports e ["require", "node", "default"] with
      | some t =>
        if t != "" then
          let candidate := posixJoin ["/snapshot/node_modules", request, t]
          if isFile stat candidate then some candidate
          else firstExtFile stat candidate
        else none
      | none => none
    else none
  | none => none

/-- The tail of the main-field fallback of nexeFindPath (part_000 lines
311-327): extension probes on the main path, then index.js in the package
root, then dist/index.js, then dist/(request).js. -/
def mainExtFallback (stat : String → Option FileKind) (request mainPath : String) :
    Option String :=
  match firstExtFile stat mainPath with
  | some p => some p
  | none =>
    let fallbackIndex := posixJoin ["/snapshot/node_modules", request, "index.js"]
    if isFile stat fallbackIndex then some fallbackIndex
    else
      let distIndex := posixJoin ["/snapshot/node_modules", request, "dist", "index.js"]
      if isFile stat distIndex then some distIndex
      else
        let distMain := posixJoin ["/snapshot/node_modules", request, "dist", request ++ ".js"]
        if isFile stat distMain then some distMain
        else none

/-- The main-field normalization of nexeFindPath (part_000 lines
285-294): read main (default index.js), strip a leading dot-slash,
substitute index.js for an empty or dot value, and append index.js after
a trailing slash. -/
def normalizedMain (pkg : JSON) : String :=
  let main0 := match jsGet pkg "main" with
               | some (JSON.str s) => s
               | _ => "index.js"
  let main1 := if jsStartsWith main0 "./" then jsSlice main0 2 else main0
  let main2 := if main1 = "" ∨ main1 = "." then "index.js" else main1
  if jsEndsWith main2 "/" then main2 ++ "index.js" else main2

/-- The dispatch of the main-field fallback on the joined main path
(part_000 lines 296-309): accept a file, try the directory index for a
directory, and otherwise fall through to the extension and dist probes. -/
def mainPhase (stat : String → Option FileKind) (pkg : JSON) (request : String) :
    Option String :=
  let mainPath := posixJoin ["/snapshot/node_modules", request, normalizedMain pkg]
  match stat mainPath with
  | some FileKind.file => some mainPath
  | some FileKind.dir =>
    let idxPath := posixJoin [mainPath, "index.js"]
    if isFile stat idxPath then some idxPath
    else mainExtFallback stat request mainPath
  | _ => mainExtFallback stat request mainPath

/-- The snapshot lookup of nexeFindPath (part_000 lines 258-327): read and
parse the package manifest under the snapshot node_modules base, giving up
on any failure, then run the exports step and the main fallback. -/
def snapshotResolve (stat : String → Option FileKind) (readF : String → Option String)
    (parse : String → Option JSON) (request : String) : Option String :=
  match readF (posixJoin ["/snapshot/node_modules", request, "package.json"]) >>= parse with
  | none => none
  | some pkg =>
    match exportsPhase stat pkg request with
    | some p => some p
    | none => mainPhase stat pkg request

/-- The result of the guarded call to the original findPath (part_000
lines 244-249): a thrown error is converted to false. -/
def findPathOrigResult (origCall : Option JSVal) : JSVal :=
  match origCall with
  | some v => v
  | none => JSVal.bool false

/-- Translated from nexeFindPath (part_000 lines 242-328): return a truthy
original result; otherwise return the original result for an empty,
relative or absolute request, and else consult the snapshot resolver,
falling back to the original result.  isAbs models the external
path.isAbsolute; origCall models the original findPath invocation on the
unmodified arguments (none models a thrown error). -/
def nexeFindPath (stat : String → Option FileKind) (readF : String → Option String)
    (parse : String → Option JSON) (isAbs : String → Bool)
    (origCall : Option JSVal) (request : String) : JSVal :=
  let result := findPathOrigResult origCall
  if jsTruthy result then result
  else if request = "" ∨ request.data.head? = some '.' ∨ isAbs request = true then result
  else
    match snapshotResolve stat readF parse request with
    | some p => JSVal.str p
    | none => result

/-- The byte layout of the embedded archive, from the NexeHeader interface
(part_000 lines 8-16). -/
structure NexeLayout where
  resourceStart : Nat
  resourceSize : Nat
  contentSize : Nat
  contentStart : Nat

/-- The header handed to shimFs (part_000 lines 8-16). -/
structure NexeHeader where
  blobPath : String
  layout : NexeLayout

/-- Errors surfaced by the blob materialization in shimFs. -/
inductive BlobReadError where
  | notFound
  | shortRead
deriving DecidableEq

/-- Translated from the blob materialization in shimFs (part_000 lines
31-43): open blobPath through the real filesystem captured before any
patching (realFile is its content, none when absent), read resourceSize
bytes from offset resourceStart, and fail like assert.equal when fewer
bytes come back. -/
def readBlob (realFile : Option (List Nat)) (hdr : NexeHeader) :
    Except BlobReadError (List Nat) :=
  match realFile with
  | none => Except.error BlobReadError.notFound
  | some bytes =>
    let blob := (bytes.drop hdr.layout.resourceStart).take hdr.layout.resourceSize
    if blob.length = hdr.layout.resourceSize then Except.ok blob
    else Except.error BlobReadError.shortRead

/-- The process-wide state touched by shimFs and restoreFs: the fs method
table, the internal-module patch table, the Module findPath slot, and the
module-level bookkeeping (originalFsMethods, the module-load snapshot
originalPatches, the captured original findPath, and whether the restore
closure is still armed). -/
structure World (F P R : Type) where
  fs : F
  patches : P
  findPath : R
  originalFsMethods : Option F
  originalPatches : P
  origFindPath : Option R
  restorePending : Bool

/-- The state right after module load (part_000 lines 18-22):
originalPatches snapshots the patch table, nothing is saved, and the
restore closure is the no-op. -/
def initWorld {F P R : Type} (fs0 : F) (p0 : P) (r0 : R) : World F P R :=
  { fs := fs0, patches := p0, findPath := r0,
    originalFsMethods := none, originalPatches := p0,
    origFindPath := none, restorePending := true.not }

/-- Translated from the install bookkeeping of shimFs (part_000 lines
24-29, 53, 124, 127, 177, 235-246, 334-345): a no-op when already
installed; otherwise save the fs table, patch it (patchedFs models the
patchFs result), assign the hook entries (hookPatches models the three
patch-table assignments), capture and replace the findPath slot
(mkResolver models wrapping the captured original), and arm the restore
closure. -/
def shimFs {F P R : Type} (patchedFs : F) (hookPatches : P → P) (mkResolver : R → R)
    (w : World F P R) : World F P R :=
  if w.originalFsMethods.isSome then w
  else
    { w with
      originalFsMethods := some w.fs,
      fs := patchedFs,
      patches := hookPatches w.patches,
      origFindPath := some w.findPath,
      findPath := mkResolver w.findPath,
      restorePending := true }

/-- Translated from restoreFs and the lazyRestoreFs closure (part_000
lines 334-350): when armed, copy the saved fs methods back, restore the
patch table from the module-load snapshot, put the captured findPath back
and null it, and disarm the closure; originalFsMethods is left as is. -/
def restoreFs {F P R : Type} (w : World F P R) : World F P R :=
  if w.restorePending then
    { w with
      fs := match w.originalFsMethods with
            | some o => o
            | none => w.fs,
      patches := w.originalPatches,
      findPath := match w.origFindPath with
                  | some r => r
                  | none => w.findPath,
      origFindPath := none,
      restorePending := false }
  else w

/-- Concrete fixture: a read function exposing one empty file under the
snapshot root. -/
def emptyFileRead : String → Option String :=
  fun p => if p = "/snapshot/empty.txt" then some "" else none

/-- Concrete fixture: the parsed left-pad manifest of the spec scenario. -/
def leftPadJSON : JSON :=
  JSON.obj [("exports", JSON.obj [(".", JSON.obj
    [("require", JSON.str "./cjs/index.js"),
     ("default", JSON.str "./esm/index.js")])])]

/-- Concrete fixture: the left-pad manifest text. -/
def leftPadText : String :=
  "\x7b\"exports\":\x7b\".\":\x7b\"require\":\"./cjs/index.js\",\"default\":\"./esm/index.js\"\x7d\x7d\x7d"

/-- Concrete fixture: the archive read function of the left-pad scenario. -/
def leftPadRead : String → Option String :=
  fun p => if p = "/snapshot/node_modules/left-pad/package.json" then some leftPadText
           else none

/-- Concrete fixture: a JSON.parse model for the left-pad manifest. -/
def leftPadParse : String → Option JSON :=
  fun s => if s = leftPadText then some leftPadJSON else none

/-- Concrete fixture: the archive stat function of the left-pad scenario. -/
def leftPadStat : String → Option FileKind :=
  fun p => if p = "/snapshot/node_modules/left-pad/cjs/index.js" then some FileKind.file
           else if p = "/snapshot/node_modules/left-pad/package.json" then some FileKind.file
           else none

/-- Concrete fixture: the widget manifest text (an empty object). -/
def widgetText : String := "\x7b\x7d"

/-- Concrete fixture: the archive read function of the widget scenario. -/
def widgetRead : String → Option String :=
  fun p => if p = "/snapshot/node_modules/widget/package.json" then some widgetText
           else none

/-- Concrete fixture: a JSON.parse model for the widget manifest. -/
def widgetParse : String → Option JSON :=
  fun s => if s = widgetText then some (JSON.obj []) else none

/-- Concrete fixture: the archive stat function of the widget scenario. -/
def widgetStat : String → Option FileKind :=
  fun p => if p = "/snapshot/node_modules/widget/dist/index.js" then some FileKind.file
           else if p = "/snapshot/node_modules/widget/package.json" then some FileKind.file
           else none

/-- A character list is a prefix of itself followed by anything. -/
theorem isPrefixOf_self_append (l1 l2 : List Char) :
    List.isPrefixOf l1 (l1 ++ l2) = true := by
  induction l1 with
  | nil => simp [List.isPrefixOf]
  | cons a t ih => simp [List.isPrefixOf, ih]

/-- String append concatenates the underlying character lists. -/
theorem string_data_append (s t : String) : (s ++ t).data = s.data ++ t.data := rfl

/-- A string prefixed onto anything passes the startsWith test for it. -/
theorem jsStartsWith_append (a x : String) : jsStartsWith (a ++ x) a = true := by
  simp [jsStartsWith, string_data_append, isPrefixOf_self_append]

/-- C9: the path normalizer is idempotent: mapping the result of
toSnapshotPath again returns it unchanged, and a path already beginning
with the snapshot root is returned unchanged. -/
theorem toSnapshotPath_idem (drive projectRoot : String)
    (rel : String → String → String) (p : String) :
    toSnapshotPath drive projectRoot rel (toSnapshotPath drive projectRoot rel p)
      = toSnapshotPath drive projectRoot rel p
    ∧ (jsStartsWith p "/snapshot/" = true → toSnapshotPath drive projectRoot rel p = p) := by
  constructor
  · by_cases h1 : jsStartsWith p "/snapshot/" = true
    · simp [toSnapshotPath, h1]
    · by_cases h2 : jsStartsWith p (drive ++ "\\snapshot\\") = true
      · simp [toSnapshotPath, h1, h2, jsStartsWith_append]
      · by_cases h3 : jsStartsWith p projectRoot = true
        · simp [toSnapshotPath, h1, h2, h3, jsStartsWith_append]
        · simp [toSnapshotPath, h1, h2, h3]
  · intro h
    simp [toSnapshotPath, h]

/-- Witness for C9 at a concrete snapshot path. -/
theorem toSnapshotPath_idem_witness :
    toSnapshotPath "C:" "C:\\proj" (fun _ _ => "") "/snapshot/a" = "/snapshot/a" :=
  (toSnapshotPath_idem "C:" "C:\\proj" (fun _ _ => "") "/snapshot/a").2 (by decide)

/-- C3 counterexample: on the drive-snapshot branch the code slices after
drive.length + 9 characters, keeping the trailing backslash of the
matched prefix, so the claimed output without an extra separator is
wrong at the very example of the claim. -/
theorem toSnapshotPath_drive_cex :
    toSnapshotPath "C:" "C:\\proj" (fun _ _ => "") "C:\\snapshot\\src\\entry.js"
        = "/snapshot//src/entry.js"
    ∧ toSnapshotPath "C:" "C:\\proj" (fun _ _ => "") "C:\\snapshot\\src\\entry.js"
        ≠ "/snapshot/src/entry.js" := by
  exact ⟨by decide, by decide⟩

/-- C3 amended: for a path built as a two-character drive followed by the
backslashed snapshot prefix and a remainder, toSnapshotPath returns the
snapshot root, a doubled separator (the converted trailing backslash of
the prefix, which the slice at drive.length + 9 keeps), and the remainder
with backslashes converted to slashes. -/
theorem toSnapshotPath_drive_branch (c1 c2 : Char) (drive projectRoot : String)
    (rel : String → String → String) (rest : String)
    (hd : drive.data = [c1, c2])
    (h1 : jsStartsWith (drive ++ "\\snapshot\\" ++ rest) "/snapshot/" = false) :
    toSnapshotPath drive projectRoot rel (drive ++ "\\snapshot\\" ++ rest)
      = "/snapshot//" ++ backslashToSlash rest := by
  have hb2 : jsStartsWith (drive ++ "\\snapshot\\" ++ rest) (drive ++ "\\snapshot\\") = true := by
    have := jsStartsWith_append (drive ++ "\\snapshot\\") rest
    simpa using this
  have hlen : drive.length = 2 := by
    simp [String.length, hd]
  have hdata : (drive ++ "\\snapshot\\" ++ rest).data
      = c1 :: c2 :: '\\' :: 's' :: 'n' :: 'a' :: 'p' :: 's' :: 'h' :: 'o' :: 't' :: '\\'
        :: rest.data := by
    simp [string_data_append, hd]
  simp only [toSnapshotPath, h1, hb2, Bool.false_eq_true, if_false, if_true,
    Bool.not_eq_true, if_pos]
  apply String.ext
  simp [string_data_append, backslashToSlash, jsSlice, hlen, hdata]

/-- Witness for C3 at the concrete path of the spec scenario. -/
theorem toSnapshotPath_drive_branch_witness :
    toSnapshotPath "C:" "Z:\\other" (fun _ _ => "") ("C:" ++ "\\snapshot\\" ++ "src\\x.js")
      = "/snapshot//src/x.js" := by
  have h := toSnapshotPath_drive_branch 'C' ':' "C:" "Z:\\other" (fun _ _ => "")
      "src\\x.js" (by decide) (by decide)
  exact h.trans (by decide)

/-- C2 counterexample: after install, install (a no-op) and uninstall from
the module-load state, the saved fs-method table is still populated, so
the Saved-Originals Table is not cleared as the claim states. -/
theorem restore_table_not_cleared_cex :
    (restoreFs (shimFs 99 (fun p => p + 1) (fun r => r + 1)
        (shimFs 98 (fun p => p + 2) (fun r => r + 2)
          (initWorld (10 : Nat) (20 : Nat) (30 : Nat))))).originalFsMethods = some 10
    ∧ some 10 ≠ (none : Option Nat) := by
  exact ⟨rfl, by decide⟩

/-- C2 amended: after install, a second no-op install, and uninstall, the
fs table, the patch table and the findPath slot are identity-equal to
their pre-install originals, the captured findPath and the restore
closure are cleared, but the saved fs-method table remains populated with
the original fs table (it is not cleared). -/
theorem install_install_uninstall_restores {F P R : Type}
    (fs0 : F) (p0 : P) (r0 : R)
    (a1 a2 : F) (h1 h2 : P → P) (m1 m2 : R → R) :
    (restoreFs (shimFs a2 h2 m2 (shimFs a1 h1 m1 (initWorld fs0 p0 r0)))).fs = fs0
    ∧ (restoreFs (shimFs a2 h2 m2 (shimFs a1 h1 m1 (initWorld fs0 p0 r0)))).patches = p0
    ∧ (restoreFs (shimFs a2 h2 m2 (shimFs a1 h1 m1 (initWorld fs0 p0 r0)))).findPath = r0
    ∧ (restoreFs (shimFs a2 h2 m2 (shimFs a1 h1 m1 (initWorld fs0 p0 r0)))).origFindPath = none
    ∧ (restoreFs (shimFs a2 h2 m2 (shimFs a1 h1 m1 (initWorld fs0 p0 r0)))).restorePending = false
    ∧ (restoreFs (shimFs a2 h2 m2 (shimFs a1 h1 m1 (initWorld fs0 p0 r0)))).originalFsMethods
        = some fs0 := by
  simp [initWorld, shimFs, restoreFs]

/-- C8: the blob materialization returns exactly the resourceSize bytes
starting at resourceStart of the blob file; a short read (a file too
short for the window) and a missing blob file are fatal errors. -/
theorem readBlob_exact (file : List Nat) (hdr : NexeHeader) :
    (∀ b, readBlob (some file) hdr = Except.ok b →
        b = (file.drop hdr.layout.resourceStart).take hdr.layout.resourceSize
        ∧ b.length = hdr.layout.resourceSize)
    ∧ (0 < hdr.layout.resourceSize →
        file.length < hdr.layout.resourceStart + hdr.layout.resourceSize →
        readBlob (some file) hdr = Except.error BlobReadError.shortRead)
    ∧ readBlob none hdr = Except.error BlobReadError.notFound := by
  refine ⟨?_, ?_, rfl⟩
  · intro b hb
    simp only [readBlob] at hb
    split at hb
    · cases hb
      exact ⟨rfl, by assumption⟩
    · cases hb
  · intro hpos hshort
    simp only [readBlob]
    rw [if_neg]
    simp only [List.length_take, List.length_drop]
    omega

/-- Concrete fixture header for the blob-read witness. -/
def shortHeader : NexeHeader :=
  { blobPath := "/usr/bin/tool",
    layout := { resourceStart := 1, resourceSize := 10, contentSize := 0, contentStart := 0 } }

/-- Witness for C8: a five-byte file cannot satisfy a ten-byte window at
offset one, and the failure is the short-read error. -/
theorem readBlob_exact_witness :
    readBlob (some [1, 2, 3, 4, 5]) shortHeader = Except.error BlobReadError.shortRead :=
  (readBlob_exact [1, 2, 3, 4, 5] shortHeader).2.1 (by decide) (by decide)

/-- C4: the stat hook delegates descriptors to the saved original fstat,
returning 0 on success and negated ENOENT on failure; a string path,
supplied first or second behind a non-string non-number context, is
stripped of the extended-length prefix, mapped, and reported as 1 for a
directory, 0 for a file, and negated ENOENT when absent. -/
theorem internalModuleStat_behavior (fstatOk : Int → Bool)
    (stat : String → Option FileKind) (drive projectRoot : String)
    (rel : String → String → String) (original : List JSVal → Int)
    (args : List JSVal) :
    (∀ n, argGet args 0 = JSVal.num n →
        internalModuleStat fstatOk stat drive projectRoot rel original args
          = if fstatOk n then 0 else -ENOENT)
    ∧ (∀ s, (argGet args 0 = JSVal.str s
          ∨ ((∀ n, argGet args 0 ≠ JSVal.num n) ∧ (∀ t, argGet args 0 ≠ JSVal.str t)
             ∧ argGet args 1 = JSVal.str s)) →
        ((stat (toSnapshotPath drive projectRoot rel (stripExtendedLen s))
              = some FileKind.dir →
            internalModuleStat fstatOk stat drive projectRoot rel original args = 1)
         ∧ (stat (toSnapshotPath drive projectRoot rel (stripExtendedLen s))
              = some FileKind.file →
            internalModuleStat fstatOk stat drive projectRoot rel original args = 0)
         ∧ (stat (toSnapshotPath drive projectRoot rel (stripExtendedLen s)) = none →
            internalModuleStat fstatOk stat drive projectRoot rel original args
              = -ENOENT))) := by
  constructor
  · intro n hn
    simp [internalModuleStat, hn]
  · intro s hs
    have hbranch : internalModuleStat fstatOk stat drive projectRoot rel original args
        = statPathBranch stat drive projectRoot rel s := by
      rcases hs with h | ⟨hn, ht, h2⟩
      · simp [internalModuleStat, h]
      · unfold internalModuleStat
        cases h0 : argGet args 0 with
        | num n => exact absurd h0 (hn n)
        | str t => exact absurd h0 (ht t)
        | bool b => simp [h2]
        | undef => simp [h2]
        | other => simp [h2]
    refine ⟨?_, ?_, ?_⟩ <;> intro hstat <;>
      rw [hbranch] <;> simp [statPathBranch, hstat]

/-- Witness for C4 on a descriptor argument with a succeeding fstat. -/
theorem internalModuleStat_behavior_witness :
    internalModuleStat (fun _ => true) (fun _ => none) "C:" "C:\\proj" (fun _ _ => "")
        (fun _ => 5) [JSVal.num 3] = 0 := by
  have h := (internalModuleStat_behavior (fun _ => true) (fun _ => none) "C:" "C:\\proj"
      (fun _ _ => "") (fun _ => 5) [JSVal.num 3]).1 3 rfl
  simpa using h

/-- C10: when the first argument is neither a number nor a string and the
second is not a string, the stat hook falls back to the original slot on
the unmodified arguments and returns its result. -/
theorem internalModuleStat_fallback (fstatOk : Int → Bool)
    (stat : String → Option FileKind) (drive projectRoot : String)
    (rel : String → String → String) (original : List JSVal → Int)
    (args : List JSVal)
    (h0 : ∀ n, argGet args 0 ≠ JSVal.num n)
    (h1 : ∀ s, argGet args 0 ≠ JSVal.str s)
    (h2 : ∀ s, argGet args 1 ≠ JSVal.str s) :
    internalModuleStat fstatOk stat drive projectRoot rel original args = original args := by
  unfold internalModuleStat
  cases ha : argGet args 0 with
  | num n => exact absurd ha (h0 n)
  | str s => exact absurd ha (h1 s)
  | bool b =>
    cases hb : argGet args 1 with
    | str s => exact absurd hb (h2 s)
    | num n => rfl
    | bool c => rfl
    | undef => rfl
    | other => rfl
  | undef =>
    cases hb : argGet args 1 with
    | str s => exact absurd hb (h2 s)
    | num n => rfl
    | bool c => rfl
    | undef => rfl
    | other => rfl
  | other =>
    cases hb : argGet args 1 with
    | str s => exact absurd hb (h2 s)
    | num n => rfl
    | bool c => rfl
    | undef => rfl
    | other => rfl

/-- Witness for C10 on an undefined argument pair. -/
theorem internalModuleStat_fallback_witness :
    internalModuleStat (fun _ => true) (fun _ => none) "C:" "C:\\proj" (fun _ _ => "")
        (fun _ => 42) [JSVal.undef] = 42 := by
  have h := internalModuleStat_fallback (fun _ => true) (fun _ => none) "C:" "C:\\proj"
      (fun _ _ => "") (fun _ => 42) [JSVal.undef]
      (by intro n h; cases h) (by intro s h; cases h) (by intro s h; cases h)
  simpa using h

/-- C5 counterexample: a file that is present but empty makes the JSON
variant return the absent marker, not empty text, because the hook
rewrites every empty read-file result to undefined. -/
theorem internalModuleReadJSON_empty_cex :
    emptyFileRead "/snapshot/empty.txt" = some ""
    ∧ internalModuleReadJSON emptyFileRead "C:" "C:\\proj" (fun _ _ => "")
        [JSVal.str "/snapshot/empty.txt"] = none := by
  exact ⟨rfl, by decide⟩

/-- C5 amended: the plain read hook returns the contents at the mapped
path when present (including empty contents) and the empty string when
absent; the JSON variant returns the text when present and nonempty, and
the absent marker both when the file is absent and when it is present but
empty. -/
theorem readFile_hooks_behavior (readF : String → Option String)
    (drive projectRoot : String) (rel : String → String → String)
    (args : List JSVal) (p content : String)
    (harg : argGet args 0 = JSVal.str p) :
    (readF (toSnapshotPath drive projectRoot rel (stripExtendedLen p)) = some content →
        internalModuleReadFile readF drive projectRoot rel args = content)
    ∧ (readF (toSnapshotPath drive projectRoot rel (stripExtendedLen p)) = none →
        internalModuleReadFile readF drive projectRoot rel args = "")
    ∧ (readF (toSnapshotPath drive projectRoot rel (stripExtendedLen p)) = some content →
        content ≠ "" →
        internalModuleReadJSON readF drive projectRoot rel args = some content)
    ∧ (readF (toSnapshotPath drive projectRoot rel (stripExtendedLen p)) = some "" →
        internalModuleReadJSON readF drive projectRoot rel args = none)
    ∧ (readF (toSnapshotPath drive projectRoot rel (stripExtendedLen p)) = none →
        internalModuleReadJSON readF drive projectRoot rel args = none) := by
  refine ⟨?_, ?_, ?_, ?_, ?_⟩
  · intro h
    simp [internalModuleReadFile, harg, h]
  · intro h
    simp [internalModuleReadFile, harg, h]
  · intro h hne
    simp [internalModuleReadJSON, internalModuleReadFile, harg, h, hne]
  · intro h
    simp [internalModuleReadJSON, internalModuleReadFile, harg, h]
  · intro h
    simp [internalModuleReadJSON, internalModuleReadFile, harg, h]

/-- Witness for C5 on a present nonempty file. -/
theorem readFile_hooks_behavior_witness :
    internalModuleReadFile (fun q => if q = "/snapshot/a.txt" then some "abc" else none)
        "C:" "C:\\proj" (fun _ _ => "") [JSVal.str "/snapshot/a.txt"] = "abc" :=
  (readFile_hooks_behavior (fun q => if q = "/snapshot/a.txt" then some "abc" else none)
      "C:" "C:\\proj" (fun _ _ => "") [JSVal.str "/snapshot/a.txt"] "/snapshot/a.txt" "abc"
      rfl).1 (by decide)

/-- isFile holds exactly when the patched stat reports a regular file. -/
theorem isFile_iff (stat : String → Option FileKind) (p : String) :
    isFile stat p = true ↔ stat p = some FileKind.file := by
  unfold isFile
  cases h : stat p with
  | none => simp
  | some k => cases k <;> simp

/-- The extension probe only returns stat-verified files. -/
theorem firstExtFile_file (stat : String → Option FileKind) (p q : String)
    (h : firstExtFile stat p = some q) : stat q = some FileKind.file := by
  unfold firstExtFile at h
  split_ifs at h with e1 e2 e3
  · cases h
    exact (isFile_iff stat _).mp e1
  · cases h
    exact (isFile_iff stat _).mp e2
  · cases h
    exact (isFile_iff stat _).mp e3

/-- The exports step only returns stat-verified files. -/
theorem exportsPhase_file (stat : String → Option FileKind) (pkg : JSON)
    (request q : String) (h : exportsPhase stat pkg request = some q) :
    stat q = some FileKind.file := by
  unfold exportsPhase at h
  split at h
  · split at h
    · split at h
      · split at h
        · dsimp only at h
          split_ifs at h with e1
          · cases h
            exact (isFile_iff stat _).mp e1
          · exact firstExtFile_file stat _ _ h
        · cases h
      · cases h
    · cases h
  · cases h

/-- The tail of the main fallback only returns stat-verified files. -/
theorem mainExtFallback_file (stat : String → Option FileKind)
    (request mainPath q : String) (h : mainExtFallback stat request mainPath = some q) :
    stat q = some FileKind.file := by
  unfold mainExtFallback at h
  split at h
  · cases h
    exact firstExtFile_file stat mainPath _ (by assumption)
  · dsimp only at h
    split_ifs at h with e1 e2 e3
    · cases h
      exact (isFile_iff stat _).mp e1
    · cases h
      exact (isFile_iff stat _).mp e2
    · cases h
      exact (isFile_iff stat _).mp e3

/-- The main fallback only returns stat-verified files. -/
theorem mainPhase_file (stat : String → Option FileKind) (pkg : JSON)
    (request q : String) (h : mainPhase stat pkg request = some q) :
    stat q = some FileKind.file := by
  unfold mainPhase at h
  dsimp only at h
  split at h
  · cases h
    assumption
  · split_ifs at h with e1
    · cases h
      exact (isFile_iff stat _).mp e1
    · exact mainExtFallback_file stat _ _ _ h
  · exact mainExtFallback_file stat _ _ _ h

/-- The snapshot lookup only returns stat-verified files. -/
theorem snapshotResolve_file (stat : String → Option FileKind)
    (readF : String → Option String) (parse : String → Option JSON)
    (request q : String) (h : snapshotResolve stat readF parse request = some q) :
    stat q = some FileKind.file := by
  unfold snapshotResolve at h
  split at h
  · cases h
  · split at h
    · cases h
      exact exportsPhase_file stat _ _ _ (by assumption)
    · exact mainPhase_file stat _ _ _ h

/-- When the original result is falsy and the request is a bare
specifier, the hook result is the snapshot lookup with the original
result as fallback. -/
theorem nexeFindPath_snapshot (stat : String → Option FileKind)
    (readF : String → Option String) (parse : String → Option JSON)
    (isAbs : String → Bool) (origCall : Option JSVal) (request : String)
    (h0 : jsTruthy (findPathOrigResult origCall) = false)
    (h1 : ¬(request = "" ∨ request.data.head? = some '.' ∨ isAbs request = true)) :
    nexeFindPath stat readF parse isAbs origCall request
      = match snapshotResolve stat readF parse request with
        | some p => JSVal.str p
        | none => findPathOrigResult origCall := by
  unfold nexeFindPath
  simp [h0, h1]

/-- C7: the patched resolver returns a truthy original result; it returns
the original falsy result for a non-bare request and whenever the
manifest cannot be read or parsed; and in every case it returns either
the original result or a stat-verified snapshot file, never an
exception. -/
theorem nexeFindPath_no_throw (stat : String → Option FileKind)
    (readF : String → Option String) (parse : String → Option JSON)
    (isAbs : String → Bool) (origCall : Option JSVal) (request : String) :
    (jsTruthy (findPathOrigResult origCall) = true →
        nexeFindPath stat readF parse isAbs origCall request = findPathOrigResult origCall)
    ∧ (jsTruthy (findPathOrigResult origCall) = false →
        (request = "" ∨ request.data.head? = some '.' ∨ isAbs request = true) →
        nexeFindPath stat readF parse isAbs origCall request = findPathOrigResult origCall)
    ∧ (jsTruthy (findPathOrigResult origCall) = false →
        readF (posixJoin ["/snapshot/node_modules", request, "package.json"]) >>= parse
          = none →
        nexeFindPath stat readF parse isAbs origCall request = findPathOrigResult origCall)
    ∧ (nexeFindPath stat readF parse isAbs origCall request = findPathOrigResult origCall
        ∨ ∃ s, nexeFindPath stat readF parse isAbs origCall request = JSVal.str s
            ∧ stat s = some FileKind.file) := by
  refine ⟨?_, ?_, ?_, ?_⟩
  · intro ht
    unfold nexeFindPath
    simp [ht]
  · intro ht hg
    unfold nexeFindPath
    simp [ht, hg]
  · intro ht hparse
    by_cases hg : request = "" ∨ request.data.head? = some '.' ∨ isAbs request = true
    · unfold nexeFindPath
      simp [ht, hg]
    · rw [nexeFindPath_snapshot stat readF parse isAbs origCall request ht hg]
      unfold snapshotResolve
      rw [hparse]
  · by_cases ht : jsTruthy (findPathOrigResult origCall) = true
    · left
      unfold nexeFindPath
      simp [ht]
    · by_cases hg : request = "" ∨ request.data.head? = some '.' ∨ isAbs request = true
      · left
        unfold nexeFindPath
        simp [ht, hg]
      · rw [nexeFindPath_snapshot stat readF parse isAbs origCall request
          (by simpa using ht) hg]
        cases hres : snapshotResolve stat readF parse request with
        | none => left; rfl
        | some p =>
          right
          exact ⟨p, rfl, snapshotResolve_file stat readF parse request p hres⟩

/-- Witness for C7: a truthy original result is returned unchanged. -/
theorem nexeFindPath_no_throw_witness :
    nexeFindPath (fun _ => none) (fun _ => none) (fun _ => none) (fun _ => false)
        (some (JSVal.str "/real/path.js")) "x" = JSVal.str "/real/path.js" :=
  (nexeFindPath_no_throw (fun _ => none) (fun _ => none) (fun _ => none) (fun _ => false)
      (some (JSVal.str "/real/path.js")) "x").1 (by decide)

/-- C1: for a bare request whose manifest parses to a package with a
truthy exports field, when the resolver (conditions require, node,
default, unwrapping a dot subpath, scanning keys in insertion order and
recursing) produces a nonempty target, the hook returns the target joined
to the package base when that is a file, and otherwise the first of the
js, json, node extension probes that is a file. -/
theorem nexeFindPath_exports_resolution (stat : String → Option FileKind)
    (readF : String → Option String) (parse : String → Option JSON)
    (isAbs : String → Bool) (origCall : Option JSVal) (request : String)
    (pkg e : JSON) (t : String)
    (h0 : jsTruthy (findPathOrigResult origCall) = false)
    (h1 : ¬(request = "" ∨ request.data.head? = some '.' ∨ isAbs request = true))
    (h2 : readF (posixJoin ["/snapshot/node_modules", request, "package.json"]) >>= parse
        = some pkg)
    (h3 : jsGet pkg "exports" = some e)
    (h4 : jsonTruthy e = true)
    (h5 : resolvePackageExports e ["require", "node", "default"] = some t)
    (h6 : t ≠ "") :
    (isFile stat (posixJoin ["/snapshot/node_modules", request, t]) = true →
        nexeFindPath stat readF parse isAbs origCall request
          = JSVal.str (posixJoin ["/snapshot/node_modules", request, t]))
    ∧ (isFile stat (posixJoin ["/snapshot/node_modules", request, t]) = false →
        isFile stat (posixJoin ["/snapshot/node_modules", request, t] ++ ".js") = true →
        nexeFindPath stat readF parse isAbs origCall request
          = JSVal.str (posixJoin ["/snapshot/node_modules", request, t] ++ ".js"))
    ∧ (isFile stat (posixJoin ["/snapshot/node_modules", request, t]) = false →
        isFile stat (posixJoin ["/snapshot/node_modules", request, t] ++ ".js") = false →
        isFile stat (posixJoin ["/snapshot/node_modules", request, t] ++ ".json") = true →
        nexeFindPath stat readF parse isAbs origCall request
          = JSVal.str (posixJoin ["/snapshot/node_modules", request, t] ++ ".json"))
    ∧ (isFile stat (posixJoin ["/snapshot/node_modules", request, t]) = false →
        isFile stat (posixJoin ["/snapshot/node_modules", request, t] ++ ".js") = false →
        isFile stat (posixJoin ["/snapshot/node_modules", request, t] ++ ".json") = false →
        isFile stat (posixJoin ["/snapshot/node_modules", request, t] ++ ".node") = true →
        nexeFindPath stat readF parse isAbs origCall request
          = JSVal.str (posixJoin ["/snapshot/node_modules", request, t] ++ ".node")) := by
  have hout := nexeFindPath_snapshot stat readF parse isAbs origCall request h0 h1
  have hsnap : ∀ q, exportsPhase stat pkg request = some q →
      nexeFindPath stat readF parse isAbs origCall request = JSVal.str q := by
    intro q hq
    rw [hout]
    unfold snapshotResolve
    rw [h2]
    dsimp only
    rw [hq]
  have hexp : exportsPhase stat pkg request
      = (if isFile stat (posixJoin ["/snapshot/node_modules", request, t]) = true then
          some (posixJoin ["/snapshot/node_modules", request, t])
         else firstExtFile stat (posixJoin ["/snapshot/node_modules", request, t])) := by
    unfold exportsPhase
    rw [h3]
    dsimp only
    rw [h5]
    dsimp only
    simp [h4, h6]
  refine ⟨?_, ?_, ?_, ?_⟩
  · intro f1
    exact hsnap _ (by rw [hexp]; simp [f1])
  · intro f1 f2
    exact hsnap _ (by rw [hexp]; simp [firstExtFile, f1, f2])
  · intro f1 f2 f3
    exact hsnap _ (by rw [hexp]; simp [firstExtFile, f1, f2, f3])
  · intro f1 f2 f3 f4
    exact hsnap _ (by rw [hexp]; simp [firstExtFile, f1, f2, f3, f4])

/-- Witness for C1: the left-pad scenario of the spec resolves through
the require condition to the cjs entry inside the archive. -/
theorem nexeFindPath_exports_resolution_witness :
    nexeFindPath leftPadStat leftPadRead leftPadParse (fun _ => false)
        (some (JSVal.bool false)) "left-pad"
      = JSVal.str "/snapshot/node_modules/left-pad/cjs/index.js" := by
  have h5 : resolvePackageExports
      (JSON.obj [(".", JSON.obj
        [("require", JSON.str "./cjs/index.js"),
         ("default", JSON.str "./esm/index.js")])])
      ["require", "node", "default"] = some "./cjs/index.js" := by
    simp [resolvePackageExports, lookupField, resolveExportsObject, condLoopObj]
  have h := (nexeFindPath_exports_resolution leftPadStat leftPadRead leftPadParse
      (fun _ => false) (some (JSVal.bool false)) "left-pad" leftPadJSON
      (JSON.obj [(".", JSON.obj
        [("require", JSON.str "./cjs/index.js"),
         ("default", JSON.str "./esm/index.js")])])
      "./cjs/index.js" rfl (by decide) rfl rfl rfl h5 (by decide)).1 (by decide)
  exact h.trans (by decide)

/-- C6: for a bare request whose manifest parses but whose exports step
produces nothing, the hook joins the normalized main field against the
package base and returns it when a file, the directory index when a
directory containing one, then the first extension probe, then the
package index, then dist/index.js, then dist/(request).js, and otherwise
the original falsy result. -/
theorem nexeFindPath_main_fallback (stat : String → Option FileKind)
    (readF : String → Option String) (parse : String → Option JSON)
    (isAbs : String → Bool) (origCall : Option JSVal) (request : String) (pkg : JSON)
    (h0 : jsTruthy (findPathOrigResult origCall) = false)
    (h1 : ¬(request = "" ∨ request.data.head? = some '.' ∨ isAbs request = true))
    (h2 : readF (posixJoin ["/snapshot/node_modules", request, "package.json"]) >>= parse
        = some pkg)
    (h3 : exportsPhase stat pkg request = none) :
    nexeFindPath stat readF parse isAbs origCall request
      = (let mainPath := posixJoin ["/snapshot/node_modules", request, normalizedMain pkg]
         let idxPath := posixJoin [mainPath, "index.js"]
         let fallbackIndex := posixJoin ["/snapshot/node_modules", request, "index.js"]
         let distIndex := posixJoin ["/snapshot/node_modules", request, "dist", "index.js"]
         let distMain := posixJoin ["/snapshot/node_modules", request, "dist", request ++ ".js"]
         if stat mainPath = some FileKind.file then JSVal.str mainPath
         else if stat mainPath = some FileKind.dir ∧ isFile stat idxPath = true then
           JSVal.str idxPath
         else if isFile stat (mainPath ++ ".js") = true then JSVal.str (mainPath ++ ".js")
         else if isFile stat (mainPath ++ ".json") = true then JSVal.str (mainPath ++ ".json")
         else if isFile stat (mainPath ++ ".node") = true then JSVal.str (mainPath ++ ".node")
         else if isFile stat fallbackIndex = true then JSVal.str fallbackIndex
         else if isFile stat distIndex = true then JSVal.str distIndex
         else if isFile stat distMain = true then JSVal.str distMain
         else findPathOrigResult origCall) := by
  have hout := nexeFindPath_snapshot stat readF parse isAbs origCall request h0 h1
  have hres : snapshotResolve stat readF parse request = mainPhase stat pkg request := by
    unfold snapshotResolve
    rw [h2]
    dsimp only
    rw [h3]
  rw [hout, hres]
  dsimp only
  unfold mainPhase mainExtFallback firstExtFile
  dsimp only
  cases hstat : stat (posixJoin ["/snapshot/node_modules", request, normalizedMain pkg]) with
  | none =>
    simp only [hstat]
    split_ifs <;> simp_all
  | some k =>
    cases k with
    | file =>
      simp only [hstat]
      split_ifs <;> simp_all
    | dir =>
      simp only [hstat]
      split_ifs <;> simp_all
    | other =>
      simp only [hstat]
      split_ifs <;> simp_all

/-- Witness for C6: the widget scenario of the spec, an empty manifest
with only dist/index.js present, resolves to the dist index. -/
theorem nexeFindPath_main_fallback_witness :
    nexeFindPath widgetStat widgetRead widgetParse (fun _ => false)
        (some (JSVal.bool false)) "widget"
      = JSVal.str "/snapshot/node_modules/widget/dist/index.js" := by
  have h := nexeFindPath_main_fallback widgetStat widgetRead widgetParse
      (fun _ => false) (some (JSVal.bool false)) "widget" (JSON.obj [])
      rfl (by decide) rfl rfl
  exact h.trans (by decide)

end Nexe
